import Mathlib

/-!
Shallow embedding of the GameMaker-Cpp bytecode virtual machine
(`VM_Value.h` / `VM_Value.cpp`, `VM_Instruction.h`, `VM_Executor.h` and the
`VirtualMachine` implementation), together with theorems settling the spec
claims about it.

Modelling conventions:
* C++ `double` is modelled as `ℚ`; none of the properties below depend on
  floating-point rounding (the reals involved are small integers and the
  division-by-zero path is guarded in the source before any division).
* `std::map<std::string, T>` is modelled as an association list with
  insert-or-overwrite and first-match lookup.
* `std::stack<Value>` is a `List Value` with the head as the top.
* `std::vector<ExecutionFrame>` is a `List ExecutionFrame` with the head
  playing the role of `back()` (the most recently pushed frame).
* `size_t` arithmetic on the instruction pointer wraps modulo `2 ^ 64`,
  exactly as the unsigned C++ arithmetic does.
* Runaway recursion through `CALL` is cut off by an explicit fuel
  parameter; exhausted fuel simply stops the execution loop, mirroring the
  fault containment that breaks out of the loop in the source.
-/

namespace GM

/-- The `size_t` modulus for the 64-bit instruction pointer. -/
def size64 : Nat := 2 ^ 64

/-- The `GM::Value` tagged union: UNDEFINED / REAL / STRING / BOOL
(`VM_Value.h`). -/
inductive Value where
  | undefined : Value
  | real (r : ℚ) : Value
  | str (s : String) : Value
  | bool (b : Bool) : Value
deriving DecidableEq, Repr, Inhabited

namespace Value

/-- Source `Value::IsString`. -/
def isString : Value → Bool
  | .str _ => true
  | _ => false

/-- Source `Value::IsReal`. -/
def isReal : Value → Bool
  | .real _ => true
  | _ => false

/-- Source `Value::IsBool`. -/
def isBool : Value → Bool
  | .bool _ => true
  | _ => false

/-- Accumulate a run of decimal digits as a natural number; `none` if a
non-digit occurs or the run is empty. -/
def decDigits : List Char → Option Nat
  | [] => none
  | cs =>
    cs.foldl
      (fun acc c =>
        match acc with
        | none => none
        | some n => if c.isDigit then some (n * 10 + (c.toNat - 48)) else none)
      (some 0)

/-- Model of the `std::stod`-with-catch conversion in `Value::AsReal`:
a decimal literal (optional sign, digits, optional fractional digits)
parses to its rational value, anything else yields `0` (the source catches
every parse exception and returns `0.0`). `std::stod` forms beyond plain
decimal literals (exponents, hex, inf/nan, partial prefixes) are outside
every property proved below. -/
def stodOrZero (s : String) : ℚ :=
  let core : List Char → ℚ := fun cs =>
    match cs.span (fun c => c ≠ '.') with
    | (intPart, fracPart) =>
      match decDigits intPart with
      | none => 0
      | some n =>
        match fracPart with
        | [] => (n : ℚ)
        | _ :: fracDigits =>
          match decDigits fracDigits with
          | none => 0
          | some f => (n : ℚ) + (f : ℚ) / ((10 : ℚ) ^ fracDigits.length)
  match s.toList with
  | '-' :: rest => -(core rest)
  | '+' :: rest => core rest
  | cs => core cs

/-- Source `Value::AsReal` (`VM_Value.cpp`): REAL passes through, STRING goes
through `std::stod` with `0.0` on failure, BOOL maps to `1.0`/`0.0`,
UNDEFINED to `0.0`. -/
def AsReal : Value → ℚ
  | .real r => r
  | .str s => stodOrZero s
  | .bool b => if b then 1 else 0
  | .undefined => 0

/-- Source `Value::AsBool` (`VM_Value.cpp`): REAL is true iff nonzero, STRING is
true iff nonempty, BOOL passes through, UNDEFINED is false. -/
def AsBool : Value → Bool
  | .real r => decide (r ≠ 0)
  | .str s => !s.isEmpty
  | .bool b => b
  | .undefined => false

/-- Source `Value::operator+`: coerce both sides with `AsReal` and add. -/
def add (a b : Value) : Value := .real (a.AsReal + b.AsReal)

/-- Source `Value::operator-` (binary). -/
def sub (a b : Value) : Value := .real (a.AsReal - b.AsReal)

/-- Source `Value::operator*`. -/
def mul (a b : Value) : Value := .real (a.AsReal * b.AsReal)

/-- Source `Value::operator/`: a zero divisor returns `Value(0.0)` before any
division happens. -/
def div (a b : Value) : Value :=
  let divisor := b.AsReal
  if divisor = 0 then .real 0 else .real (a.AsReal / divisor)

/-- Truncation toward zero, as `static_cast<int64_t>(double)` behaves on
in-range values (`Rat.num / Rat.den` with `Int.tdiv` truncates toward 0). -/
def truncQ (q : ℚ) : Int := Int.tdiv q.num (q.den : Int)

/-- Source `Value::operator%`: `std::fmod` on the coerced reals,
`fmod(x, y) = x - trunc(x / y) * y`. `fmod(x, 0)` is NaN in C, which `ℚ`
cannot represent; it is modelled as `0` (no property below evaluates MOD
with a zero divisor). -/
def vmod (a b : Value) : Value :=
  let x := a.AsReal
  let y := b.AsReal
  if y = 0 then .real 0 else .real (x - (truncQ (x / y) : ℚ) * y)

/-- Source `Value::operator-` (unary negation). -/
def neg (a : Value) : Value := .real (-a.AsReal)

/-- Two's-complement bit pattern of an `int64_t`. -/
def n64 (i : Int) : Nat := (i % (2 ^ 64 : Int)).toNat

/-- Read a 64-bit pattern back as a signed `int64_t`. -/
def ofN64 (n : Nat) : Int :=
  if n < 2 ^ 63 then (n : Int) else (n : Int) - 2 ^ 64

/-- Source `Value::operator&`: casts both coerced reals to `int64_t` and applies
the C bitwise AND. -/
def band (a b : Value) : Value :=
  .real ((ofN64 (Nat.land (n64 (truncQ a.AsReal)) (n64 (truncQ b.AsReal))) : ℚ))

/-- Source `Value::operator|`. -/
def bor (a b : Value) : Value :=
  .real ((ofN64 (Nat.lor (n64 (truncQ a.AsReal)) (n64 (truncQ b.AsReal))) : ℚ))

/-- Source `Value::operator^`. -/
def bxor (a b : Value) : Value :=
  .real ((ofN64 (Nat.xor (n64 (truncQ a.AsReal)) (n64 (truncQ b.AsReal))) : ℚ))

/-- Source `Value::operator~`: `~x = -x - 1` on `int64_t`. -/
def bcom (a : Value) : Value :=
  .real ((-(truncQ a.AsReal) - 1 : Int) : ℚ)

/-- Source `Value::operator<<` on the `int64_t` casts; shift counts outside
`[0, 64)` are undefined behaviour in C++ and are modelled by reducing the
count modulo 64, with the result wrapped to 64 bits. -/
def shl (a b : Value) : Value :=
  .real ((ofN64 (n64 (truncQ a.AsReal) * 2 ^ (n64 (truncQ b.AsReal) % 64) % 2 ^ 64) : ℚ))

/-- Source `Value::operator>>`: arithmetic right shift on `int64_t` (floor
division by a power of two), count reduced modulo 64 as for `shl`. -/
def shr (a b : Value) : Value :=
  .real ((Int.fdiv (truncQ a.AsReal) (2 ^ (n64 (truncQ b.AsReal) % 64)) : ℚ))

/-- Source `Value::operator==`: string/string compares as strings, otherwise both
sides coerce through `AsReal` and compare numerically. -/
def veq (a b : Value) : Bool :=
  match a, b with
  | .str s1, .str s2 => s1 == s2
  | x, y => decide (x.AsReal = y.AsReal)

/-- Source `Value::operator!=`: negation of `operator==`. -/
def vne (a b : Value) : Bool := !(veq a b)

/-- Source `Value::operator<`: string/string compares lexicographically,
otherwise numerically. -/
def vlt (a b : Value) : Bool :=
  match a, b with
  | .str s1, .str s2 => decide (s1 < s2)
  | x, y => decide (x.AsReal < y.AsReal)

/-- Source `Value::operator<=`: `(a < b) || (a == b)`. -/
def vle (a b : Value) : Bool := vlt a b || veq a b

/-- Source `Value::operator>`: `!(a <= b)`. -/
def vgt (a b : Value) : Bool := !(vle a b)

/-- Source `Value::operator>=`: `!(a < b)`. -/
def vge (a b : Value) : Bool := !(vlt a b)

/-- Source `Value::operator!` (`VM_Value.cpp`): `Value(!AsBool())`, which selects
the `Value(bool)` constructor — the result is a BOOL-kind Value. -/
def lnot (a : Value) : Value := .bool (!a.AsBool)

end Value

/-- The `GM::OpCode` enumeration (`VM_Instruction.h`). -/
inductive OpCode where
  | PUSH | POP | PUSHI | PUSHF | PUSHS | PUSHB | PUSHU | PUSHVN | POPVN
  | ADD | SUB | MUL | DIV | MOD | NEG
  | AND | OR | XOR | COM | SHL | SHR
  | TEQ | TNE | TLT | TLE | TGT | TGE | LAND | LOR | NOT
  | JMP | BT | BF | RET | CALL | CALLV | NOP | EXIT
  | LDGLB | STGLB | LDLOC | STLOC | LDINST | STINST
  | CONV
  | DUP | DROP
  | INVALID
deriving DecidableEq, Repr

/-- Source `GM::Instruction` (`VM_Instruction.h`): opcode, two Value operands, a
string operand, and an `int32_t` jump target defaulting to the `-1`
sentinel. -/
structure Instruction where
  op : OpCode := .INVALID
  operand1 : Value := .undefined
  operand2 : Value := .undefined
  operandStr : String := ""
  jumpTarget : Int := -1
deriving DecidableEq, Repr

/-- Source `GM::CodeBlock` (`VM_Instruction.h`). -/
structure CodeBlock where
  name : String := ""
  instructions : List Instruction := []
  id : Int := -1
deriving DecidableEq, Repr

/-- Source `std::map` lookup (`map::find`): first matching key. -/
def mapFind {α : Type} : List (String × α) → String → Option α
  | [], _ => none
  | (k', v) :: rest, k => if k' = k then some v else mapFind rest k

/-- Source `std::map` insert-or-overwrite (`map::operator[]` followed by
assignment). -/
def mapInsert {α : Type} : List (String × α) → String → α → List (String × α)
  | [], k, v => [(k, v)]
  | (k', v') :: rest, k, v =>
    if k' = k then (k, v) :: rest else (k', v') :: mapInsert rest k v

/-- Source `GM::ExecutionFrame` (`VM_Executor.h`): function name, a per-frame
instruction pointer (only ever displayed by `GetCallStack`), a local
variable table (never written by any opcode), and the pending return
value. -/
structure ExecutionFrame where
  functionName : String := ""
  instructionPointer : Nat := 0
  locals : List (String × Value) := []
  returnValue : Value := .undefined
deriving DecidableEq, Repr

/-- The mutable state of `GM::VirtualMachine` (`VM_Executor.h`): the code
block table, the operand stack (head = top), the call stack (head =
`back()`), the global variable table, and the member instruction pointer
`instructionPointer_` shared across nested `Execute` calls. The write-only
member `currentCode_` and the semantics-free `debugOutput_` flag are
omitted. -/
structure VMState where
  codeBlocks : List (String × CodeBlock) := []
  stack : List Value := []
  callStack : List ExecutionFrame := []
  globals : List (String × Value) := []
  instructionPointer : Nat := 0
deriving DecidableEq, Repr

/-- Source `VirtualMachine::AddCodeBlock`: upsert by name. -/
def AddCodeBlock (s : VMState) (block : CodeBlock) : VMState :=
  { s with codeBlocks := mapInsert s.codeBlocks block.name block }

/-- Source `VirtualMachine::LoadCodeBlocks`: add each block in order. -/
def LoadCodeBlocks (s : VMState) (blocks : List CodeBlock) : VMState :=
  blocks.foldl AddCodeBlock s

/-- Source `VirtualMachine::PopStack`: an empty operand stack logs an underflow
and yields the sentinel `Value(0.0)` with the state unchanged. -/
def PopStack (s : VMState) : Value × VMState :=
  match s.stack with
  | [] => (.real 0, s)
  | v :: rest => (v, { s with stack := rest })

/-- Source `VirtualMachine::PushStack`. -/
def PushStack (v : Value) (s : VMState) : VMState :=
  { s with stack := v :: s.stack }

/-- Source `VirtualMachine::PeekStack`: `Value(0.0)` on an empty stack. -/
def PeekStack (s : VMState) : Value :=
  match s.stack with
  | [] => .real 0
  | v :: _ => v

/-- The early-return test in `VirtualMachine::Execute`:
`!callStack_.empty() && callStack_.back().returnValue.AsReal() != 0`. -/
def earlyReturn (s : VMState) : Bool :=
  match s.callStack with
  | [] => false
  | f :: _ => decide (f.returnValue.AsReal ≠ 0)

/-- Conversion of a signed jump-target computation to the unsigned
`size_t` member `instructionPointer_` (wraps modulo `2 ^ 64`). -/
def toSizeT (i : Int) : Nat := (i % ((2 ^ 64 : Nat) : Int)).toNat

mutual

/-- Source `VirtualMachine::ExecuteFunction`: unknown names return `Value(0.0)`
without touching any state; otherwise a fresh frame is pushed, the block
is executed, and the back frame's return value is taken as the result
before popping it. (`callStack_.back()` on an empty vector is undefined
behaviour in the source; that branch is proved unreachable below and is
modelled as returning Undefined.) All four execution functions consume one
unit of fuel per entry, so the recursion is structural; exhausted fuel
leaves the state unchanged, playing the role of the fault boundary that
breaks out of the loop in the source. -/
def ExecuteFunction : Nat → String → VMState → Value × VMState
  | 0, _, s => (.undefined, s)
  | Nat.succ fuel, functionName, s =>
    match mapFind s.codeBlocks functionName with
    | none => (.real 0, s)
    | some code =>
      let s1 : VMState :=
        { s with callStack := { functionName := functionName } :: s.callStack }
      let s2 := Execute fuel code s1
      match s2.callStack with
      | [] => (.undefined, s2)
      | f :: rest => (f.returnValue, { s2 with callStack := rest })
termination_by structural fuel _ _ => fuel

/-- Source `VirtualMachine::Execute`: reset the member instruction pointer to 0,
then run the fetch-execute loop. Nested calls overwrite the same member
pointer — the source does not save or restore it around recursion. -/
def Execute : Nat → CodeBlock → VMState → VMState
  | 0, _, s => s
  | Nat.succ fuel, code, s =>
    ExecuteLoop fuel code { s with instructionPointer := 0 }
termination_by structural fuel _ _ => fuel

/-- The `while (instructionPointer_ < code.instructions.size())` loop of
`VirtualMachine::Execute`: dispatch the fetched instruction, break if the
back frame's return value reads as nonzero, otherwise increment the
(`size_t`, hence wrapping) pointer and continue. -/
def ExecuteLoop : Nat → CodeBlock → VMState → VMState
  | 0, _, s => s
  | Nat.succ fuel, code, s =>
    if h : s.instructionPointer < code.instructions.length then
      let s1 := (ExecuteInstruction fuel (code.instructions.get ⟨s.instructionPointer, h⟩) s).2
      if earlyReturn s1 then s1
      else
        ExecuteLoop fuel code
          { s1 with instructionPointer := (s1.instructionPointer + 1) % size64 }
    else s
termination_by structural fuel _ _ => fuel

/-- Source `VirtualMachine::ExecuteInstruction`: the opcode dispatch switch. The
returned Value mirrors the C++ function's return (only RET returns its
popped value; every other case falls through to `return Value()`), and is
discarded by the caller exactly as in the source. -/
def ExecuteInstruction : Nat → Instruction → VMState → Value × VMState
  | 0, _, s => (.undefined, s)
  | Nat.succ fuel, instr, s =>
    match instr.op with
    | .PUSH => (.undefined, PushStack instr.operand1 s)
    | .PUSHI => (.undefined, PushStack (.real instr.operand1.AsReal) s)
    | .PUSHF => (.undefined, PushStack (.real instr.operand1.AsReal) s)
    | .PUSHS => (.undefined, PushStack (.str instr.operandStr) s)
    | .PUSHB =>
      (.undefined, PushStack (.bool (decide (instr.operand1.AsReal ≠ 0))) s)
    | .PUSHU => (.undefined, PushStack .undefined s)
    | .POP =>
      let (val, s1) := PopStack s
      if !instr.operandStr.isEmpty then
        (.undefined, { s1 with globals := mapInsert s1.globals instr.operandStr val })
      else
        (.undefined, s1)
    | .ADD =>
      let (b, s1) := PopStack s
      let (a, s2) := PopStack s1
      (.undefined, PushStack (a.add b) s2)
    | .SUB =>
      let (b, s1) := PopStack s
      let (a, s2) := PopStack s1
      (.undefined, PushStack (a.sub b) s2)
    | .MUL =>
      let (b, s1) := PopStack s
      let (a, s2) := PopStack s1
      (.undefined, PushStack (a.mul b) s2)
    | .DIV =>
      let (b, s1) := PopStack s
      let (a, s2) := PopStack s1
      (.undefined, PushStack (a.div b) s2)
    | .MOD =>
      let (b, s1) := PopStack s
      let (a, s2) := PopStack s1
      (.undefined, PushStack (a.vmod b) s2)
    | .NEG =>
      let (a, s1) := PopStack s
      (.undefined, PushStack a.neg s1)
    | .AND =>
      let (b, s1) := PopStack s
      let (a, s2) := PopStack s1
      (.undefined, PushStack (a.band b) s2)
    | .OR =>
      let (b, s1) := PopStack s
      let (a, s2) := PopStack s1
      (.undefined, PushStack (a.bor b) s2)
    | .XOR =>
      let (b, s1) := PopStack s
      let (a, s2) := PopStack s1
      (.undefined, PushStack (a.bxor b) s2)
    | .COM =>
      let (a, s1) := PopStack s
      (.undefined, PushStack a.bcom s1)
    | .SHL =>
      let (b, s1) := PopStack s
      let (a, s2) := PopStack s1
      (.undefined, PushStack (a.shl b) s2)
    | .SHR =>
      let (b, s1) := PopStack s
      let (a, s2) := PopStack s1
      (.undefined, PushStack (a.shr b) s2)
    | .TEQ =>
      let (b, s1) := PopStack s
      let (a, s2) := PopStack s1
      (.undefined, PushStack (.real (if Value.veq a b then 1 else 0)) s2)
    | .TNE =>
      let (b, s1) := PopStack s
      let (a, s2) := PopStack s1
      (.undefined, PushStack (.real (if Value.vne a b then 1 else 0)) s2)
    | .TLT =>
      let (b, s1) := PopStack s
      let (a, s2) := PopStack s1
      (.undefined, PushStack (.real (if Value.vlt a b then 1 else 0)) s2)
    | .TLE =>
      let (b, s1) := PopStack s
      let (a, s2) := PopStack s1
      (.undefined, PushStack (.real (if Value.vle a b then 1 else 0)) s2)
    | .TGT =>
      let (b, s1) := PopStack s
      let (a, s2) := PopStack s1
      (.undefined, PushStack (.real (if Value.vgt a b then 1 else 0)) s2)
    | .TGE =>
      let (b, s1) := PopStack s
      let (a, s2) := PopStack s1
      (.undefined, PushStack (.real (if Value.vge a b then 1 else 0)) s2)
    | .LAND =>
      let (b, s1) := PopStack s
      let (a, s2) := PopStack s1
      (.undefined, PushStack (.real (if a.AsBool && b.AsBool then 1 else 0)) s2)
    | .LOR =>
      let (b, s1) := PopStack s
      let (a, s2) := PopStack s1
      (.undefined, PushStack (.real (if a.AsBool || b.AsBool then 1 else 0)) s2)
    | .NOT =>
      let (a, s1) := PopStack s
      (.undefined, PushStack a.lnot s1)
    | .JMP =>
      if 0 ≤ instr.jumpTarget then
        (.undefined, { s with instructionPointer := toSizeT (instr.jumpTarget - 1) })
      else
        (.undefined, s)
    | .BT =>
      let (cond, s1) := PopStack s
      if cond.AsBool && decide (0 ≤ instr.jumpTarget) then
        (.undefined, { s1 with instructionPointer := toSizeT (instr.jumpTarget - 1) })
      else
        (.undefined, s1)
    | .BF =>
      let (cond, s1) := PopStack s
      if !cond.AsBool && decide (0 ≤ instr.jumpTarget) then
        (.undefined, { s1 with instructionPointer := toSizeT (instr.jumpTarget - 1) })
      else
        (.undefined, s1)
    | .RET =>
      let (ret, s1) := PopStack s
      match s1.callStack with
      | [] => (ret, s1)
      | f :: rest => (ret, { s1 with callStack := { f with returnValue := ret } :: rest })
    | .CALL =>
      if !instr.operandStr.isEmpty then
        (.undefined, (ExecuteFunction fuel instr.operandStr s).2)
      else
        (.undefined, s)
    | .NOP => (.undefined, s)
    | .DUP =>
      let val := PeekStack s
      (.undefined, PushStack val s)
    | .DROP => (.undefined, (PopStack s).2)
    | _ => (.undefined, s)
termination_by structural fuel _ _ => fuel

end

/-! ### Helper lemmas -/

theorem mapFind_mapInsert_ne {α : Type} (m : List (String × α)) (k k' : String)
    (v : α) (h : k' ≠ k) : mapFind (mapInsert m k v) k' = mapFind m k' := by
  induction m with
  | nil => simp [mapInsert, mapFind, Ne.symm h]
  | cons hd tl ih =>
    obtain ⟨a, b⟩ := hd
    by_cases hak : a = k
    · subst hak
      simp [mapInsert, mapFind, Ne.symm h]
    · simp only [mapInsert, if_neg hak, mapFind]
      by_cases hak' : a = k'
      · simp [hak']
      · simp [hak', ih]

/-- The `earlyReturn` reads only the call stack, so changing the instruction
pointer leaves it unchanged. -/
theorem earlyReturn_set_ip (s : VMState) (x : Nat) :
    earlyReturn { s with instructionPointer := x } = earlyReturn s := rfl

/-- The `earlyReturn` is unaffected by replacing the operand stack. -/
theorem earlyReturn_set_stack (s : VMState) (st : List Value) :
    earlyReturn { s with stack := st } = earlyReturn s := rfl

/-- The `earlyReturn` depends only on the call stack. -/
theorem earlyReturn_congr (s' s : VMState) (h : s'.callStack = s.callStack) :
    earlyReturn s' = earlyReturn s := by
  unfold earlyReturn
  rw [h]

/-- The `earlyReturn` ignores simultaneous stack/pointer updates. -/
theorem earlyReturn_update (s : VMState) (st : List Value) (ip : Nat) :
    earlyReturn { s with stack := st, instructionPointer := ip }
      = earlyReturn s := rfl

/-- A pop never touches the call stack, so `earlyReturn` is preserved. -/
theorem earlyReturn_popStack (s : VMState) :
    earlyReturn (PopStack s).2 = earlyReturn s := by
  cases hs : s.stack
  · simp [PopStack, hs]
  · simp only [PopStack, hs]
    rfl

/-- Unfolding of one loop iteration when the pointer is in bounds. -/
theorem ExecuteLoop_succ_lt (fuel : Nat) (code : CodeBlock) (s : VMState)
    (h : s.instructionPointer < code.instructions.length) :
    ExecuteLoop (fuel + 1) code s =
      (if earlyReturn
            (ExecuteInstruction fuel
              (code.instructions.get ⟨s.instructionPointer, h⟩) s).2 = true
       then (ExecuteInstruction fuel
              (code.instructions.get ⟨s.instructionPointer, h⟩) s).2
       else
         ExecuteLoop fuel code
           { (ExecuteInstruction fuel
                (code.instructions.get ⟨s.instructionPointer, h⟩) s).2 with
             instructionPointer :=
               ((ExecuteInstruction fuel
                  (code.instructions.get ⟨s.instructionPointer, h⟩)
                  s).2.instructionPointer + 1) % size64 }) := by
  simp [ExecuteLoop, h]

/-- Unfolding of the loop when the pointer has run off the block. -/
theorem ExecuteLoop_succ_ge (fuel : Nat) (code : CodeBlock) (s : VMState)
    (h : ¬ s.instructionPointer < code.instructions.length) :
    ExecuteLoop (fuel + 1) code s = s := by
  simp [ExecuteLoop, h]

/-- The `size_t` round trip of a taken jump: writing `target - 1` into the
unsigned pointer and then incrementing lands exactly on `target`, for
every `int32_t` target `0 ≤ t < 2^31` — including `t = 0`, where the
subtraction wraps to `2^64 - 1` and the increment wraps back to 0. -/
theorem toSizeT_succ_wrap (t : Int) (h0 : 0 ≤ t) (h31 : t < 2 ^ 31) :
    (toSizeT (t - 1) + 1) % size64 = t.toNat := by
  simp only [toSizeT, size64]
  omega

/-- Popping commutes with replacing the global table: the popped value is
unchanged and the table rides along untouched. -/
theorem popStack_setGlobals (s : VMState) (g : List (String × Value)) :
    PopStack { s with globals := g }
      = ((PopStack s).1, { (PopStack s).2 with globals := g }) := by
  cases hs : s.stack <;> simp [PopStack, hs]

/-! ### Claim C1 -/

/-- The failing input for C1: a RET at index 1 pops Number 0; the claim
says no instruction at a later index may execute after it. -/
def retZeroBlock : CodeBlock :=
  { name := "retZero", instructions :=
      [ { op := .PUSHI, operand1 := .real 0 },
        { op := .RET },
        { op := .PUSHI, operand1 := .real 5 },
        { op := .RET } ] }

/-- A VM with only `retZeroBlock` loaded. -/
def retZeroVM : VMState := AddCodeBlock {} retZeroBlock

/-- C1 fails on the code: the RET at index 1 pops Number 0 and stores it
as the frame's return value, but the loop's early-return test compares
`returnValue.AsReal()` against 0 and so does not fire; the instructions at
indices 2 and 3 still run, and the function returns Number 5 — not the
Number 0 that the RET popped and that the claim says ends the block. -/
theorem ret_number_zero_does_not_terminate_block :
    (ExecuteFunction 20 "retZero" retZeroVM).1 = Value.real 5 := by decide

/-! ### Claim C2 -/

/-- The callee for the C2 failing input: two NOPs, so the nested loop ends
with the shared member instruction pointer equal to 2. -/
def nestedCallee : CodeBlock :=
  { name := "helper", instructions := [ { op := .NOP }, { op := .NOP } ] }

/-- The caller for the C2 failing input: CALL at index 0, then a PUSHI/RET
pair the claim says must run when the caller resumes at index 1. -/
def nestedCaller : CodeBlock :=
  { name := "caller", instructions :=
      [ { op := .CALL, operandStr := "helper" },
        { op := .PUSHI, operand1 := .real 7 },
        { op := .RET } ] }

/-- A VM with the C2 caller/callee pair loaded. -/
def nestedCallVM : VMState :=
  AddCodeBlock (AddCodeBlock {} nestedCallee) nestedCaller

/-- C2 fails on the code: the nested `Execute` overwrites the single
member instruction pointer, so after the CALL at index 0 the caller's loop
increments from the callee's final pointer (2) to 3 and exits without ever
executing the caller's instructions at indices 1 and 2; the call returns
Undefined instead of resuming at index 1 and returning Number 7. -/
theorem call_clobbers_caller_instruction_pointer :
    (ExecuteFunction 20 "caller" nestedCallVM).1 = Value.undefined := by decide

/-! ### Claim C3 -/

/-- C3 (confirmed): whenever the loop dispatches, at an in-bounds index of
the current block and with the active frame's pending return value still
reading as zero, a JMP with target `t ≥ 0`, a BT whose popped condition
coerces to true, or a BF whose popped condition coerces to false, the
loop's next iteration starts exactly at instruction index `t` — for every
valid `int32_t` target, including `t = 0` (where the unsigned pointer
wraps and the post-dispatch increment wraps back). Only the operand stack
(for the popped condition) distinguishes the branch cases; the call stack
and globals are untouched. -/
theorem taken_jump_lands_on_target (fuel : Nat) (code : CodeBlock)
    (s : VMState) (t : Int)
    (hlt : s.instructionPointer < code.instructions.length)
    (hret : earlyReturn s = false) (h0 : 0 ≤ t) (h31 : t < 2 ^ 31)
    (hcase :
      ((code.instructions.get ⟨s.instructionPointer, hlt⟩).op = OpCode.JMP ∧
       (code.instructions.get ⟨s.instructionPointer, hlt⟩).jumpTarget = t) ∨
      ((code.instructions.get ⟨s.instructionPointer, hlt⟩).op = OpCode.BT ∧
       (code.instructions.get ⟨s.instructionPointer, hlt⟩).jumpTarget = t ∧
       (PopStack s).1.AsBool = true) ∨
      ((code.instructions.get ⟨s.instructionPointer, hlt⟩).op = OpCode.BF ∧
       (code.instructions.get ⟨s.instructionPointer, hlt⟩).jumpTarget = t ∧
       (PopStack s).1.AsBool = false)) :
    ∃ s' : VMState,
      ExecuteLoop (fuel + 2) code s = ExecuteLoop (fuel + 1) code s' ∧
      s'.instructionPointer = t.toNat ∧
      s'.callStack = s.callStack ∧ s'.globals = s.globals ∧
      (s'.stack = s.stack ∨ s'.stack = (PopStack s).2.stack) := by
  have hwrap := toSizeT_succ_wrap t h0 h31
  rw [show fuel + 2 = (fuel + 1) + 1 from rfl,
    ExecuteLoop_succ_lt (fuel + 1) code s hlt]
  rcases hcase with ⟨hop, htgt⟩ | ⟨hop, htgt, hcond⟩ | ⟨hop, htgt, hcond⟩
  · refine ⟨{ s with instructionPointer := t.toNat }, ?_, rfl, rfl, rfl,
      Or.inl rfl⟩
    have hEI : (ExecuteInstruction (fuel + 1)
        (code.instructions.get ⟨s.instructionPointer, hlt⟩) s).2
        = { s with instructionPointer := toSizeT (t - 1) } := by
      simp only [ExecuteInstruction, hop, htgt]
      simp [h0]
    rw [hEI]
    simp only [earlyReturn_update, hret]
    simp [hwrap]
  · rcases hs : s.stack with _ | ⟨v, tl⟩
    · exfalso
      simp [PopStack, hs, Value.AsBool] at hcond
    · simp only [PopStack, hs] at hcond
      refine ⟨{ s with stack := tl, instructionPointer := t.toNat }, ?_, rfl,
        rfl, rfl, Or.inr (by simp [PopStack, hs])⟩
      have hEI : (ExecuteInstruction (fuel + 1)
          (code.instructions.get ⟨s.instructionPointer, hlt⟩) s).2
          = { s with stack := tl, instructionPointer := toSizeT (t - 1) } := by
        simp only [ExecuteInstruction, hop, htgt]
        simp [h0, PopStack, hs, hcond]
      rw [hEI]
      simp only [earlyReturn_update, hret]
      simp [hwrap]
  · rcases hs : s.stack with _ | ⟨v, tl⟩
    · simp only [PopStack, hs] at hcond
      refine ⟨{ s with instructionPointer := t.toNat }, ?_, rfl, rfl, rfl,
        Or.inl (by simp [hs])⟩
      have hEI : (ExecuteInstruction (fuel + 1)
          (code.instructions.get ⟨s.instructionPointer, hlt⟩) s).2
          = { s with instructionPointer := toSizeT (t - 1) } := by
        simp only [ExecuteInstruction, hop, htgt]
        simp [h0, PopStack, hs, hcond]
      rw [hEI]
      simp only [earlyReturn_update, hret]
      simp [hwrap]
    · simp only [PopStack, hs] at hcond
      refine ⟨{ s with stack := tl, instructionPointer := t.toNat }, ?_, rfl,
        rfl, rfl, Or.inr (by simp [PopStack, hs])⟩
      have hEI : (ExecuteInstruction (fuel + 1)
          (code.instructions.get ⟨s.instructionPointer, hlt⟩) s).2
          = { s with stack := tl, instructionPointer := toSizeT (t - 1) } := by
        simp only [ExecuteInstruction, hop, htgt]
        simp [h0, PopStack, hs, hcond]
      rw [hEI]
      simp only [earlyReturn_update, hret]
      simp [hwrap]

/-- The block used by the C3 witness: a JMP whose target is index 0. -/
def jumpZeroBlock : CodeBlock :=
  { name := "jumpZero", instructions :=
      [ { op := .JMP, jumpTarget := 0 }, { op := .NOP } ] }

/-- Witness for C3 at the hardest target, `t = 0`: the taken JMP at index
0 makes the next iteration start again at index 0 via the unsigned
wraparound. -/
theorem taken_jump_lands_on_target_witness :
    ∃ s' : VMState,
      ExecuteLoop (0 + 2) jumpZeroBlock {} = ExecuteLoop (0 + 1) jumpZeroBlock s' ∧
      s'.instructionPointer = Int.toNat 0 ∧
      s'.callStack = VMState.callStack {} ∧ s'.globals = VMState.globals {} ∧
      (s'.stack = VMState.stack {} ∨ s'.stack = (PopStack {}).2.stack) :=
  taken_jump_lands_on_target 0 jumpZeroBlock {} 0 (by decide) rfl (by decide)
    (by decide) (Or.inl ⟨rfl, rfl⟩)

/-! ### Claim C5 -/

/-- C5 as frozen is refuted at the Boolean Value `false`: its `AsBool` is
`false`, yet it is not Undefined, not a Number 0, and not an empty
String. -/
theorem asBool_boolean_false_counterexample :
    ¬ ((Value.bool false).AsBool = false ↔
        (Value.bool false = Value.undefined ∨ Value.bool false = Value.real 0 ∨
         Value.bool false = Value.str "")) := by
  decide

/-- C5 (amended): for every Value `a`, `AsBool a` returns `false` if and
only if `a` is Undefined, or a Number equal to 0, or an empty String, or
the Boolean `false`. -/
theorem asBool_false_iff (a : Value) :
    a.AsBool = false ↔
      (a = Value.undefined ∨ a = Value.real 0 ∨ a = Value.str "" ∨
       a = Value.bool false) := by
  cases a with
  | undefined => simp [Value.AsBool]
  | real r => simp [Value.AsBool]
  | str s => simp [Value.AsBool, String.isEmpty_iff]
  | bool b => cases b <;> simp [Value.AsBool]

/-! ### Claim C6 -/

/-- C6 (confirmed): for every Number Value `a`, dividing `a` by Number 0
with the division operator yields exactly Number 0 (no error is raised —
the operator is total — and no infinity is produced); consequently a DIV
dispatch whose popped divisor is Number 0 pushes Number 0. -/
theorem div_by_zero_yields_zero (fuel : Nat) (q : ℚ) (tl : List Value)
    (s : VMState) (hs : s.stack = Value.real 0 :: Value.real q :: tl) :
    Value.div (Value.real q) (Value.real 0) = Value.real 0 ∧
    (ExecuteInstruction (fuel + 1) { op := OpCode.DIV } s).2.stack
      = Value.real 0 :: tl := by
  constructor
  · simp [Value.div, Value.AsReal]
  · simp [ExecuteInstruction, PopStack, PushStack, hs, Value.div, Value.AsReal]

/-- Witness for C6 at `a = Number 10` on the operand stack `[0, 10]`. -/
theorem div_by_zero_yields_zero_witness :
    Value.div (Value.real 10) (Value.real 0) = Value.real 0 ∧
    (ExecuteInstruction (0 + 1) { op := OpCode.DIV }
        { stack := [Value.real 0, Value.real 10] }).2.stack
      = Value.real 0 :: [] :=
  div_by_zero_yields_zero 0 10 [] { stack := [Value.real 0, Value.real 10] } rfl

/-! ### Claim C7 -/

/-- C7 (confirmed): for every name with no matching loaded code block,
`ExecuteFunction` returns Number 0 with the whole state unchanged — it is
a total function, so no exception reaches the caller. -/
theorem executeFunction_unknown_name (fuel : Nat) (name : String) (s : VMState)
    (h : mapFind s.codeBlocks name = none) :
    ExecuteFunction (fuel + 1) name s = (Value.real 0, s) := by
  simp [ExecuteFunction, h]

/-- Witness for C7: `ExecuteFunction "doesNotExist"` on an empty VM. -/
theorem executeFunction_unknown_name_witness :
    ExecuteFunction (2 + 1) "doesNotExist" {} = (Value.real 0, {}) :=
  executeFunction_unknown_name 2 "doesNotExist" {} rfl

/-! ### Claim C8 -/

/-- C8 (confirmed): a pop on an empty operand stack returns the sentinel
Number 0 and leaves the state untouched; dispatching ADD on an empty stack
therefore obtains Number 0 for both implicit operands and pushes Number 0
(the dispatch is total — nothing crashes or aborts). -/
theorem underflow_returns_zero (fuel : Nat) (s : VMState) (hs : s.stack = []) :
    PopStack s = (Value.real 0, s) ∧
    (ExecuteInstruction (fuel + 1) { op := OpCode.ADD } s).2.stack
      = [Value.real 0] := by
  constructor
  · simp [PopStack, hs]
  · simp [ExecuteInstruction, PopStack, PushStack, hs, Value.add, Value.AsReal]

/-- Witness for C8 on the freshly constructed VM state. -/
theorem underflow_returns_zero_witness :
    PopStack {} = (Value.real 0, {}) ∧
    (ExecuteInstruction (0 + 1) { op := OpCode.ADD } {}).2.stack
      = [Value.real 0] :=
  underflow_returns_zero 0 {} rfl

/-! ### Claim C9 -/

/-- C9 (confirmed): a single dispatched instruction leaves the global
variable table unchanged unless it is a POP with a non-empty name operand
or a CALL. For every other opcode the dispatch neither reads nor writes
the table: running it with any replacement table `g` produces the same
returned Value and the same state except that the untouched table `g`
rides along. A POP with a non-empty name stores exactly the popped Value
under that name and changes no other key's lookup; a POP with an empty
name leaves the table unchanged. -/
theorem globals_touched_only_by_pop_and_call (fuel : Nat)
    (instr : Instruction) (s : VMState) :
    (instr.op ≠ OpCode.POP → instr.op ≠ OpCode.CALL →
      ∀ g : List (String × Value),
        ExecuteInstruction (fuel + 1) instr { s with globals := g }
          = ((ExecuteInstruction (fuel + 1) instr s).1,
             { (ExecuteInstruction (fuel + 1) instr s).2 with globals := g })) ∧
    (instr.op = OpCode.POP → instr.operandStr ≠ "" →
      (ExecuteInstruction (fuel + 1) instr s).2.globals
          = mapInsert s.globals instr.operandStr (PopStack s).1 ∧
      ∀ k : String, k ≠ instr.operandStr →
        mapFind (ExecuteInstruction (fuel + 1) instr s).2.globals k
          = mapFind s.globals k) ∧
    (instr.op = OpCode.POP → instr.operandStr = "" →
      (ExecuteInstruction (fuel + 1) instr s).2.globals = s.globals) := by
  refine ⟨?_, ?_, ?_⟩
  · intro hpop hcall g
    cases hop : instr.op
    case POP => exact absurd hop hpop
    case CALL => exact absurd hop hcall
    all_goals (
      rcases hs : s.stack with _ | ⟨v, _ | ⟨w, tl⟩⟩ <;>
      rcases hc : s.callStack with _ | ⟨f, cs⟩ <;>
        simp only [ExecuteInstruction, hop] <;>
        (try simp [hs, hc, PopStack, PushStack, PeekStack]) <;>
        (try split) <;>
        (try simp_all))
  · intro hop hstr
    have hne : instr.operandStr.isEmpty = false := by
      cases hemp : instr.operandStr.isEmpty
      · rfl
      · exact absurd ((String.isEmpty_iff _).mp hemp) hstr
    constructor
    · rcases hs : s.stack with _ | ⟨v, tl⟩ <;>
        (simp only [ExecuteInstruction, hop]
         simp [hs, hne, PopStack])
    · intro k hk
      have hg : (ExecuteInstruction (fuel + 1) instr s).2.globals
          = mapInsert s.globals instr.operandStr (PopStack s).1 := by
        rcases hs : s.stack with _ | ⟨v, tl⟩ <;>
          (simp only [ExecuteInstruction, hop]
           simp [hs, hne, PopStack])
      rw [hg, mapFind_mapInsert_ne _ _ _ _ hk]
  · intro hop hstr
    have hne : instr.operandStr.isEmpty = true := (String.isEmpty_iff _).mpr hstr
    rcases hs : s.stack with _ | ⟨v, tl⟩ <;>
      (simp only [ExecuteInstruction, hop]
       simp [hs, hne, PopStack])

/-- Witness for C9: a NOP dispatch carries any replacement global table
along untouched; a POP with name "x" stores exactly the popped Number 7
under "x" and leaves the lookup of "y" unchanged. -/
theorem globals_touched_only_by_pop_and_call_witness :
    (ExecuteInstruction (0 + 1) { op := OpCode.NOP }
        { globals := [("x", Value.real 1)] }
      = ((ExecuteInstruction (0 + 1) { op := OpCode.NOP } {}).1,
         { (ExecuteInstruction (0 + 1) { op := OpCode.NOP } {}).2 with
             globals := [("x", Value.real 1)] })) ∧
    (ExecuteInstruction (0 + 1) { op := OpCode.POP, operandStr := "x" }
        { stack := [Value.real 7] }).2.globals = [("x", Value.real 7)] ∧
    mapFind (ExecuteInstruction (0 + 1) { op := OpCode.POP, operandStr := "x" }
        { stack := [Value.real 7] }).2.globals "y" = none :=
  ⟨(globals_touched_only_by_pop_and_call 0 { op := OpCode.NOP } {}).1
      (by decide) (by decide) [("x", Value.real 1)],
   ((globals_touched_only_by_pop_and_call 0
        { op := OpCode.POP, operandStr := "x" }
        { stack := [Value.real 7] }).2.1 rfl (by decide)).1,
   ((globals_touched_only_by_pop_and_call 0
        { op := OpCode.POP, operandStr := "x" }
        { stack := [Value.real 7] }).2.1 rfl (by decide)).2 "y" (by decide)⟩

/-! ### Claim C10 -/

/-- Fuel induction for call-stack preservation: a single dispatch (and
hence a whole loop run) preserves the call stack's length and everything
below the back frame — RET rewrites only the back frame's return value —
and a completed `ExecuteFunction` restores the call stack exactly, at
every fuel, i.e. also when the loop stops early. -/
theorem callStack_preservation (fuel : Nat) :
    (∀ instr s, (ExecuteInstruction fuel instr s).2.callStack.length
        = s.callStack.length ∧
      (ExecuteInstruction fuel instr s).2.callStack.tail
        = s.callStack.tail) ∧
    (∀ name s, (ExecuteFunction fuel name s).2.callStack = s.callStack) ∧
    (∀ code s, (ExecuteLoop fuel code s).callStack.length
        = s.callStack.length ∧
      (ExecuteLoop fuel code s).callStack.tail = s.callStack.tail) ∧
    (∀ code s, (Execute fuel code s).callStack.length
        = s.callStack.length ∧
      (Execute fuel code s).callStack.tail = s.callStack.tail) := by
  induction fuel with
  | zero =>
    exact ⟨fun instr s => ⟨rfl, rfl⟩, fun name s => rfl,
      fun code s => ⟨rfl, rfl⟩, fun code s => ⟨rfl, rfl⟩⟩
  | succ n ih =>
    obtain ⟨ihEI, ihEF, ihEL, ihEX⟩ := ih
    have hEI : ∀ instr s,
        (ExecuteInstruction (n + 1) instr s).2.callStack.length
          = s.callStack.length ∧
        (ExecuteInstruction (n + 1) instr s).2.callStack.tail
          = s.callStack.tail := by
      intro instr s
      cases hop : instr.op <;>
        rcases hs : s.stack with _ | ⟨v, _ | ⟨w, tl⟩⟩ <;>
        rcases hc : s.callStack with _ | ⟨f, cs⟩ <;>
          simp only [ExecuteInstruction, hop] <;>
          (try simp [hs, hc, PopStack, PushStack, PeekStack, ihEF]) <;>
          (try split) <;>
          (try simp_all [ihEF])
    have hEL : ∀ code s,
        (ExecuteLoop (n + 1) code s).callStack.length = s.callStack.length ∧
        (ExecuteLoop (n + 1) code s).callStack.tail = s.callStack.tail := by
      intro code s
      by_cases h : s.instructionPointer < code.instructions.length
      · rw [ExecuteLoop_succ_lt n code s h]
        by_cases he : earlyReturn (ExecuteInstruction n
            (code.instructions.get ⟨s.instructionPointer, h⟩) s).2 = true
        · rw [if_pos he]
          exact ihEI _ _
        · rw [if_neg he]
          constructor
          · rw [(ihEL code _).1]
            exact (ihEI _ _).1
          · rw [(ihEL code _).2]
            exact (ihEI _ _).2
      · rw [ExecuteLoop_succ_ge n code s h]
        exact ⟨rfl, rfl⟩
    have hEX : ∀ code s,
        (Execute (n + 1) code s).callStack.length = s.callStack.length ∧
        (Execute (n + 1) code s).callStack.tail = s.callStack.tail := by
      intro code s
      exact ⟨(ihEL code { s with instructionPointer := 0 }).1,
        (ihEL code { s with instructionPointer := 0 }).2⟩
    have hEF : ∀ name s,
        (ExecuteFunction (n + 1) name s).2.callStack = s.callStack := by
      intro name s
      cases hfind : mapFind s.codeBlocks name with
      | none => simp [ExecuteFunction, hfind]
      | some code =>
        simp only [ExecuteFunction, hfind]
        have hlen := (ihEX code
          { s with callStack := { functionName := name } :: s.callStack }).1
        have htail := (ihEX code
          { s with callStack := { functionName := name } :: s.callStack }).2
        cases hcs : (Execute n code
            { s with callStack :=
                { functionName := name } :: s.callStack }).callStack with
        | nil =>
          rw [hcs] at hlen
          simp at hlen
        | cons f rest =>
          rw [hcs] at htail
          simp only [List.tail_cons] at htail
          simp [hcs, htail]
    exact ⟨hEI, hEF, hEL, hEX⟩

/-- C10 (confirmed): every invocation of `ExecuteFunction` returns with
the call stack at exactly its pre-invocation contents (in particular its
depth): when the name is unknown the whole state — so in particular the
call stack — is untouched, and otherwise the one frame pushed is popped
again, at every fuel bound, i.e. also when the execution loop stops
early. -/
theorem executeFunction_restores_callStack (fuel : Nat) (name : String)
    (s : VMState) :
    (ExecuteFunction fuel name s).2.callStack = s.callStack ∧
    (mapFind s.codeBlocks name = none →
      (ExecuteFunction fuel name s).2 = s) := by
  constructor
  · exact (callStack_preservation fuel).2.1 name s
  · intro h
    cases fuel with
    | zero => rfl
    | succ n => simp [ExecuteFunction, h]

/-- Witness for C10 at an unknown name on the empty VM. -/
theorem executeFunction_restores_callStack_witness :
    (ExecuteFunction 3 "doesNotExist" {}).2.callStack
      = VMState.callStack {} ∧
    (mapFind (VMState.codeBlocks ({} : VMState)) "doesNotExist" = none →
      (ExecuteFunction 3 "doesNotExist" {}).2 = {}) :=
  executeFunction_restores_callStack 3 "doesNotExist" {}

/-! ### Claim C4 -/

/-- C4 as frozen is refuted at `a = Number 0`: the logical NOT operator
yields the BOOL-kind Value `true` (not a Number), and the NOT opcode
pushes that Boolean Value onto the operand stack. -/
theorem not_produces_boolean_counterexample :
    Value.lnot (Value.real 0) = Value.bool true ∧
    (Value.lnot (Value.real 0)).isReal = false ∧
    (ExecuteInstruction 1 { op := OpCode.NOT }
        { stack := [Value.real 0] }).2.stack = [Value.bool true] := by
  decide

/-- C4 (amended): for every Value `a`, logical NOT (the `Value`
`operator!` and the NOT opcode, which pops one operand and pushes the
result) coerces via `AsBool` and produces a Boolean-kind Value carrying
the negated truth value — not a Number; LAND and LOR pop two operands each
and push a Number 1 or 0. -/
theorem logical_ops_result_kinds (fuel : Nat) (a b : Value) (tl : List Value)
    (sN sB : VMState) (hN : sN.stack = a :: tl)
    (hB : sB.stack = b :: a :: tl) :
    Value.lnot a = Value.bool (!a.AsBool) ∧
    (ExecuteInstruction (fuel + 1) { op := OpCode.NOT } sN).2.stack
      = Value.bool (!a.AsBool) :: tl ∧
    (ExecuteInstruction (fuel + 1) { op := OpCode.LAND } sB).2.stack
      = Value.real (if a.AsBool && b.AsBool then 1 else 0) :: tl ∧
    (ExecuteInstruction (fuel + 1) { op := OpCode.LOR } sB).2.stack
      = Value.real (if a.AsBool || b.AsBool then 1 else 0) :: tl := by
  refine ⟨rfl, ?_, ?_, ?_⟩ <;>
    simp [ExecuteInstruction, PopStack, PushStack, hN, hB, Value.lnot]

/-- Witness for C4 (amended) at `a = Number 0`, `b = Number 3`. -/
theorem logical_ops_result_kinds_witness :
    Value.lnot (Value.real 0) = Value.bool (!(Value.real 0).AsBool) ∧
    (ExecuteInstruction (0 + 1) { op := OpCode.NOT }
        { stack := [Value.real 0] }).2.stack
      = Value.bool (!(Value.real 0).AsBool) :: [] ∧
    (ExecuteInstruction (0 + 1) { op := OpCode.LAND }
        { stack := [Value.real 3, Value.real 0] }).2.stack
      = Value.real
          (if (Value.real 0).AsBool && (Value.real 3).AsBool then 1 else 0)
          :: [] ∧
    (ExecuteInstruction (0 + 1) { op := OpCode.LOR }
        { stack := [Value.real 3, Value.real 0] }).2.stack
      = Value.real
          (if (Value.real 0).AsBool || (Value.real 3).AsBool then 1 else 0)
          :: [] :=
  logical_ops_result_kinds 0 (Value.real 0) (Value.real 3) []
    { stack := [Value.real 0] } { stack := [Value.real 3, Value.real 0] }
    rfl rfl

end GM
